import Mathlib

/-!
# Verification of the Mezclas-armonicas core algorithms

A shallow embedding, in Lean 4, of the two core subsystems of the
Mezclas-armonicas repository:

* the incremental library cache (`audio_manager.py`: `load_cache`,
  `save_cache`, `scan_directory`), and
* the harmonic compatibility matching engine (`audio_manager.py`:
  `get_compatible_keys`, `parse_camelot_code`; `web_app.py`: `get_library`,
  `find_matches`).

Python strings are modelled as Lean `String`; Python `int` as `Int`;
Python `float` values that are only ever compared for equality
(`mtime`, `dbfs`) as `Rat`; Python dicts keyed by path as association
lists with first-match lookup; fallible operations as `Option`/`Except`.
External collaborators (the filesystem, the feature extractor) are
passed in as function parameters.
-/

namespace Mezclas

/-! ## Python string primitives used by the source -/

/-- ASCII whitespace test, modelling what `int(...)` strips from its
argument.  The source only ever applies `int` to 1- or 2-character
slices of a Camelot code, so ASCII coverage is faithful there. -/
def pyIsSpace (c : Char) : Bool :=
  c = ' ' || c = '\t' || c = '\n' || c = '\r'

/-- One ASCII decimal digit, as accepted by Python `int`. -/
def pyDigit (c : Char) : Option Nat :=
  if '0' ≤ c ∧ c ≤ '9' then some (c.toNat - '0'.toNat) else none

/-- A non-empty all-digit character list read as a base-10 number. -/
def pyDigits : List Char → Option Nat
  | [] => none
  | cs =>
    cs.foldl
      (fun acc c =>
        match acc, pyDigit c with
        | some n, some d => some (n * 10 + d)
        | _, _ => none)
      (some 0)

/-- Model of Python `int(s)` on short strings: strip whitespace, then an
optional sign followed by at least one ASCII digit; anything else raises
`ValueError`, modelled as `none`.  (Underscore digit separators need at
least three characters, so they cannot occur in the ≤ 2-character slices
this code converts.) -/
def pyInt (s : String) : Option Int :=
  let cs := ((s.data.dropWhile pyIsSpace).reverse.dropWhile pyIsSpace).reverse
  match cs with
  | '-' :: rest => (pyDigits rest).map (fun n => -(n : Int))
  | '+' :: rest => (pyDigits rest).map (fun n => (n : Int))
  | _ => (pyDigits cs).map (fun n => (n : Int))

/-- Model of Python `str.lower()` restricted to ASCII letters, the only
characters the matcher's folder normalization meets in practice. -/
def pyLowerChar (c : Char) : Char :=
  if 'A' ≤ c ∧ c ≤ 'Z' then Char.ofNat (c.toNat + 32) else c

/-- Model of `os.path.dirname` with POSIX separator semantics
(`posixpath.dirname`): the part of the path before the final slash, with
trailing slashes stripped unless the head is nothing but slashes. -/
def dirname (p : String) : String :=
  let cs := p.data
  let tailLen := (cs.reverse.takeWhile (fun c => c ≠ '/')).length
  let head := cs.take (cs.length - tailLen)
  if head.isEmpty then ""
  else if head.all (fun c => c = '/') then String.mk head
  else String.mk ((head.reverse.dropWhile (fun c => c = '/')).reverse)

/-- `f.lower().replace('\\', '/').strip('/')` — the folder normalization
applied to the allow-list and to candidate paths in `find_matches`
(web_app.py, lines 185 and 193). -/
def normFolder (f : String) : String :=
  let cs := (f.data.map pyLowerChar).map (fun c => if c = '\\' then '/' else c)
  String.mk (((cs.dropWhile (fun c => c = '/')).reverse.dropWhile
    (fun c => c = '/')).reverse)

/-! ## Camelot key theory (audio_manager.py) -/

/-- `parse_camelot_code` (audio_manager.py, lines 534-543): a 2-character
code is one digit plus a letter, a 3-character code two digits plus a
letter; any other length, or a failing `int` conversion, yields
`(None, None)`, modelled as `none`.  The identical inline parse at the
top of `get_compatible_keys` (lines 504-514) is shared with this
definition. -/
def parse_camelot_code (code : String) : Option (Int × Char) :=
  let cs := code.data
  if cs.length = 2 then
    match pyInt (String.mk (cs.take 1)), cs.get? 1 with
    | some n, some l => some (n, l)
    | _, _ => none
  else if cs.length = 3 then
    match pyInt (String.mk (cs.take 2)), cs.get? 2 with
    | some n, some l => some (n, l)
    | _, _ => none
  else none

/-- `get_compatible_keys` (audio_manager.py, lines 498-532).  Note the
source validates neither the numeric range nor the letter: any code
whose shape parses is processed structurally. -/
def get_compatible_keys (camelot_code : String) : List String :=
  if camelot_code = "---" then []
  else
    match parse_camelot_code camelot_code with
    | none => []
    | some (number, letter) =>
      let other_letter := if letter = 'A' then 'B' else 'A'
      let plus_one := if number < 12 then number + 1 else 1
      let minus_one := if number > 1 then number - 1 else 12
      [camelot_code,
       toString number ++ String.mk [other_letter],
       toString plus_one ++ String.mk [letter],
       toString minus_one ++ String.mk [letter]]

/-- Rendering of a well-formed Camelot position as the string the tables
`CAMELOT_MAJOR` / `CAMELOT_MINOR` produce, e.g. `"8B"`, `"12A"`. -/
def renderCamelot (n : Nat) (l : Char) : String :=
  toString n ++ String.mk [l]

/-! ## Data model -/

/-- The fields of the per-file `info` dict built by `get_audio_info`
(audio_manager.py, lines 144-158) that the cache and the matcher read.
The extractor always writes every key, but hand-edited or legacy cache
entries may lack `folder` or `dbfs`, and the code reads both through
`dict.get` with a default — hence the `Option` fields. -/
structure TrackInfo where
  path : String
  filename : String
  folder : Option String
  camelot : String
  bpm : Int
  dbfs : Option Rat
  deriving Repr, DecidableEq

/-- One value of the persisted cache dict: the `(mtime, size)`
fingerprint captured at analysis time plus the feature record
(audio_manager.py, lines 356-360). -/
structure CacheEntry where
  mtime : Rat
  size : Nat
  info : TrackInfo
  deriving Repr, DecidableEq

/-- The persisted cache: a dict keyed by absolute path, modelled as an
association list with unique keys and first-match lookup. -/
abbrev Cache := List (String × CacheEntry)

/-- Python `path in cache` / `cache[path]` on the dict. -/
def cacheLookup (cache : Cache) (k : String) : Option CacheEntry :=
  (cache.find? (fun p => p.1 = k)).map (fun p => p.2)

/-- Python `cache[path] = entry`: overwrite the binding in place when
the key is present (a dict holds each key once), otherwise append a new
binding at the end, as dict assignment does. -/
def cacheInsert (cache : Cache) (k : String) (v : CacheEntry) : Cache :=
  match cache with
  | [] => [(k, v)]
  | p :: rest => if p.1 = k then (k, v) :: rest else p :: cacheInsert rest k v

/-! ## The library view (web_app.py `get_library`, lines 18-30) -/

/-- `get_library`: walk the cache in order, fill a missing `folder` key
from the path, and keep only records whose `camelot` is truthy (a
non-empty string) and not the sentinel `"---"`.  (The `file_size` field
the source also copies in is never read by the matcher and is omitted.) -/
def get_library (cache : Cache) : List TrackInfo :=
  (cache.map (fun p =>
    let info := p.2.info
    if info.folder = none then { info with folder := some (dirname info.path) }
    else info)).filter
    (fun info => info.camelot ≠ "" && info.camelot ≠ "---")

/-! ## The matching engine (web_app.py `find_matches`, lines 174-275) -/

/-- One emitted match descriptor (web_app.py, lines 264-271).  The raw
`compatible_keys.index` priority computed at line 220 is dead code in
the source — the descriptor carries the unified `sort_priority`. -/
structure MatchDescriptor where
  track : TrackInfo
  bpm_diff : Nat
  priority : Nat
  mix_type : String
  mix_desc : String
  same_folder_priority : Nat
  deriving Repr, DecidableEq

/-- The classification block of `find_matches` (web_app.py, lines
231-262): defaults `("HARMONIC", "Tonalidad adyacente", 2)`, refined
only when both codes parse and one of the three relations (identical
code / same number different letter / ±1 number) applies. -/
def classifyMix (track_camelot cand_camelot : String) : String × String × Nat :=
  match parse_camelot_code track_camelot, parse_camelot_code cand_camelot with
  | some (curr_num, curr_let), some (cand_num, cand_let) =>
    if track_camelot = cand_camelot then
      ("PERFECT", "Misma tonalidad - (Mantiene la vibra)", 1)
    else if curr_num = cand_num ∧ curr_let ≠ cand_let then
      let desc :=
        if curr_let = 'B' ∧ cand_let = 'A' then "Cambio de Escala: De Alegre a Serio"
        else if curr_let = 'A' ∧ cand_let = 'B' then "Cambio de Escala: De Serio a Alegre"
        else "Tonalidad adyacente"
      ("HARMONIC", desc, 2)
    else
      let is_up := cand_num = curr_num + 1 ∨ (curr_num = 12 ∧ cand_num = 1)
      let is_down := cand_num = curr_num - 1 ∨ (curr_num = 1 ∧ cand_num = 12)
      if is_up then ("ENERGY", "Subir energía (+1)", 3)
      else if is_down then ("ENERGY", "Bajar energía (-1)", 3)
      else ("HARMONIC", "Tonalidad adyacente", 2)
  | _, _ => ("HARMONIC", "Tonalidad adyacente", 2)

/-- The reference track's folder (web_app.py, lines 208-212):
`track.get('folder', '')`, falling back to `dirname(path)` when that is
falsy and a path is present. -/
def trackFolderOf (track : TrackInfo) : String :=
  let tf := track.folder.getD ""
  if tf = "" ∧ track.path ≠ "" then dirname track.path else tf

/-- A candidate's folder (web_app.py, line 228):
`candidate.get('folder', dirname(candidate['path']) if candidate['path']
else '')`. -/
def candidateFolderOf (candidate : TrackInfo) : String :=
  candidate.folder.getD (if candidate.path ≠ "" then dirname candidate.path else "")

/-- The descriptor built for one surviving candidate (web_app.py, lines
224-271). -/
def mkMatch (track : TrackInfo) (track_folder : String) (candidate : TrackInfo) :
    MatchDescriptor :=
  let bpm_diff := (candidate.bpm - track.bpm).natAbs
  let same_folder_priority :=
    if candidateFolderOf candidate = track_folder then 0 else 10
  let c := classifyMix track.camelot candidate.camelot
  { track := candidate
    bpm_diff := bpm_diff
    priority := c.2.2
    mix_type := c.1
    mix_desc := c.2.1
    same_folder_priority := same_folder_priority }

/-- The candidate loop of `find_matches` (web_app.py, lines 204-271):
skip the reference itself by path equality, keep candidates whose code
lies in the raw compatible-key list, and build a descriptor for each. -/
def matchesFor (track : TrackInfo) (library : List TrackInfo) :
    List MatchDescriptor :=
  let compatible_keys := get_compatible_keys track.camelot
  library.filterMap (fun candidate =>
    if candidate.path = track.path then none
    else if compatible_keys.contains candidate.camelot then
      some (mkMatch track (trackFolderOf track) candidate)
    else none)

/-- The sort key comparison of `matches.sort(key=lambda x:
(x['same_folder_priority'], x['priority'], x['bpm_diff']))`
(web_app.py, line 274): non-strict lexicographic order on the triple. -/
def matchLe (a b : MatchDescriptor) : Prop :=
  a.same_folder_priority < b.same_folder_priority ∨
    (a.same_folder_priority = b.same_folder_priority ∧
      (a.priority < b.priority ∨
        (a.priority = b.priority ∧ a.bpm_diff ≤ b.bpm_diff)))

instance : DecidableRel matchLe := fun a b => by
  unfold matchLe; infer_instance

instance : IsTotal MatchDescriptor matchLe :=
  ⟨fun a b => by unfold matchLe; omega⟩

instance : IsTrans MatchDescriptor matchLe :=
  ⟨fun a b c => by unfold matchLe; omega⟩

/-- The allow-list filter of `find_matches` (web_app.py, lines 177-202):
normalize the allowed folders, and keep exactly the candidates whose
normalized path's directory equals one of them (records with a falsy
path are skipped by the `continue`). -/
def filterAllowed (allowed : List String) (library : List TrackInfo) :
    List TrackInfo :=
  let normalized_allowed := allowed.map normFolder
  library.filter (fun t =>
    if t.path = "" then false
    else
      let track_path_norm := normFolder t.path
      let track_folder :=
        if track_path_norm.contains '/' then dirname track_path_norm else ""
      normalized_allowed.contains track_folder)

/-- `find_matches` (web_app.py, lines 174-275), with the library view it
reads passed in as a parameter.  Python's `list.sort` is a stable sort
by the key triple; `List.insertionSort` with the non-strict
lexicographic order `matchLe` is a stable sort by the same key, and
stable sorts under a total preorder agree, so the model is extensionally
the source's sort. -/
def find_matches (track : TrackInfo) (allowed_folders : Option (List String))
    (library : List TrackInfo) : List MatchDescriptor :=
  match allowed_folders with
  | some af =>
    if af = [] then []
    else List.insertionSort matchLe (matchesFor track (filterAllowed af library))
  | none => List.insertionSort matchLe (matchesFor track library)

/-- The list of descriptors `find_matches` builds before the final sort
(empty when the allow-list short-circuits): the reference point for the
permutation and stability statements about the sort at web_app.py line
274. -/
def preMatches (track : TrackInfo) (allowed_folders : Option (List String))
    (library : List TrackInfo) : List MatchDescriptor :=
  match allowed_folders with
  | some af =>
    if af = [] then [] else matchesFor track (filterAllowed af library)
  | none => matchesFor track library

/-- `find_matches` as actually invoked by the web endpoints: the
candidate pool is `get_library()` over the persisted cache
(web_app.py, line 175). -/
def find_matches_cache (cache : Cache) (track : TrackInfo)
    (allowed_folders : Option (List String)) : List MatchDescriptor :=
  find_matches track allowed_folders (get_library cache)

/-! ## Cache persistence (audio_manager.py `load_cache` / `save_cache`) -/

/-- `load_cache` (audio_manager.py, lines 65-72).  The filesystem is
abstracted as the pair (does the cache file exist, outcome of reading
and JSON-decoding it).  A missing file returns `{}`; any exception while
opening or parsing is swallowed by the bare `except` and also returns
`{}`. -/
def load_cache (fileExists : Bool) (readResult : Except String Cache) : Cache :=
  if fileExists then
    match readResult with
    | Except.ok c => c
    | Except.error _ => []
  else []

/-- `save_cache` (audio_manager.py, lines 74-79).  The write is
abstracted as its outcome; a failure is converted into the logged
message `"Error guardando caché: ..."` and the function returns
normally in both cases (the exception is never re-raised). -/
def save_cache (writeResult : Except String Unit) : Unit × Option String :=
  match writeResult with
  | Except.ok _ => ((), none)
  | Except.error e => ((), some ("Error guardando caché: " ++ e))

/-! ## The scanner (audio_manager.py `scan_directory`, lines 288-369)

The filesystem is abstracted by three parameters: `globFind dir pat`,
the list of paths `glob(os.path.join(dir, '**', pat), recursive=True)`
returns; `abspath`, normalization to an absolute path; and `fsStat p`,
the `(getmtime p, getsize p)` pair or `none` when the stat raises
`OSError`.  The feature extractor `get_audio_info` is abstracted as
`extractor : String → TrackInfo`. -/

/-- The fixed extension patterns (audio_manager.py, line 291). -/
def audioExtensions : List String := ["*.mp3", "*.wav", "*.flac", "*.m4a"]

/-- The discovery phase (audio_manager.py, lines 290-307): enumerate
every root for every extension pattern, concatenate, map to absolute
paths and deduplicate.  The source's `list(set(...))` deduplicates with
unspecified iteration order; `List.dedup` models the deduplication
(keeping first occurrences) — no later step depends on this order. -/
def discoverFiles (globFind : String → String → List String)
    (abspath : String → String) (directories : List String) : List String :=
  let audio_files :=
    directories.flatMap (fun d => audioExtensions.flatMap (fun e => globFind d e))
  (audio_files.map abspath).dedup

/-- The partition loop (audio_manager.py, lines 316-339): for each
discovered file, a stat failure skips it; a cache hit with matching
fingerprint reuses the cached record — unless loudness is requested and
the cached `dbfs` (read via `info.get('dbfs', -99.0)`) is still the
sentinel `-99.0`, in which case the file is queued for analysis; a miss
or changed fingerprint queues it for analysis.  Returns the reused
records and the queue, each in traversal order. -/
def scanPartition (fsStat : String → Option (Rat × Nat)) (cache : Cache)
    (calculate_gain : Bool) : List String → List TrackInfo × List String
  | [] => ([], [])
  | f :: rest =>
    let tl := scanPartition fsStat cache calculate_gain rest
    match fsStat f with
    | none => tl
    | some (mtime, size) =>
      match cacheLookup cache f with
      | some cached_data =>
        if cached_data.mtime = mtime ∧ cached_data.size = size then
          if calculate_gain ∧ cached_data.info.dbfs.getD (-99) = -99 then
            (tl.1, f :: tl.2)
          else (cached_data.info :: tl.1, tl.2)
        else (tl.1, f :: tl.2)
      | none => (tl.1, f :: tl.2)

/-- The analysis loop (audio_manager.py, lines 344-362): invoke the
extractor on each queued file, append the record, and overwrite the
cache entry with the file's current fingerprint (a stat failure inside
the `try` leaves the cache unchanged for that file). -/
def scanAnalyze (fsStat : String → Option (Rat × Nat))
    (extractor : String → TrackInfo) (cache : Cache) :
    List String → List TrackInfo × Cache
  | [] => ([], cache)
  | f :: rest =>
    let info := extractor f
    let cache' :=
      match fsStat f with
      | some (mtime, size) => cacheInsert cache f ⟨mtime, size, info⟩
      | none => cache
    let tl := scanAnalyze fsStat extractor cache' rest
    (info :: tl.1, tl.2)

/-- `scan_directory` (audio_manager.py, lines 288-369): discovery, the
reuse/analyze partition, then analysis with cache update; the returned
record list is the reused records followed by the freshly analyzed
ones, and the updated cache is persisted via `save_cache`. -/
def scan_directory (globFind : String → String → List String)
    (abspath : String → String) (fsStat : String → Option (Rat × Nat))
    (extractor : String → TrackInfo) (directories : List String)
    (calculate_gain : Bool) (cache : Cache) : List TrackInfo × Cache :=
  let audio_files := discoverFiles globFind abspath directories
  let part := scanPartition fsStat cache calculate_gain audio_files
  let analyzed := scanAnalyze fsStat extractor cache part.2
  (part.1 ++ analyzed.1, analyzed.2)

/-- The reuse condition of the partition loop, as a Boolean predicate on
the cache state: a fresh fingerprint and (no loudness request or a
non-sentinel cached `dbfs`). -/
def reusableEntry (cache : Cache) (calculate_gain : Bool) (f : String)
    (mtime : Rat) (size : Nat) : Bool :=
  match cacheLookup cache f with
  | some cd =>
    decide (cd.mtime = mtime) && decide (cd.size = size) &&
      !(calculate_gain && decide (cd.info.dbfs.getD (-99) = -99))
  | none => false

/-- Consistency of an emitted `mix_type` with the actual number/letter
delta between the two parsed codes, the property §4.2 of the spec
ascribes to every emitted descriptor. -/
def mixConsistent (ref cand : String) (ty : String) : Prop :=
  match parse_camelot_code ref, parse_camelot_code cand with
  | some (rn, rl), some (cn, cl) =>
    (ty = "PERFECT" → ref = cand) ∧
    (ty = "HARMONIC" → rn = cn ∧ rl ≠ cl) ∧
    (ty = "ENERGY" →
      rl = cl ∧ (cn = rn + 1 ∨ (rn = 12 ∧ cn = 1) ∨ cn = rn - 1 ∨ (rn = 1 ∧ cn = 12)))
  | _, _ => False

/-- Boolean twin of `mixConsistent`, for decidability. -/
def mixConsistentB (ref cand : String) (ty : String) : Bool :=
  match parse_camelot_code ref, parse_camelot_code cand with
  | some (rn, rl), some (cn, cl) =>
    (!(ty == "PERFECT") || ref == cand) &&
    (!(ty == "HARMONIC") || (rn == cn && !(rl == cl))) &&
    (!(ty == "ENERGY") ||
      (rl == cl &&
        (cn == rn + 1 || (rn == 12 && cn == 1) || cn == rn - 1 || (rn == 1 && cn == 12))))
  | _, _ => false

theorem mixConsistent_iff (ref cand ty : String) :
    mixConsistent ref cand ty ↔ mixConsistentB ref cand ty = true := by
  unfold mixConsistent mixConsistentB
  rcases parse_camelot_code ref with _ | ⟨rn, rl⟩ <;>
    rcases parse_camelot_code cand with _ | ⟨cn, cl⟩ <;>
    simp [imp_iff_not_or, or_assoc, and_assoc]

instance (ref cand ty : String) : Decidable (mixConsistent ref cand ty) :=
  decidable_of_iff _ (mixConsistent_iff ref cand ty).symm

/-! ## Concrete records for the closed instances below

`refC1`/`candC1a`/`candC1b`/`candC1c` realize the ranking example of
spec §8; `dW1`/`dW2` are two fully tied candidates; `refC6`/`candC6`
realize the stale-reference scenario of spec §4.2; the rest are small
scanner fixtures. -/

def refC1 : TrackInfo := ⟨"F1/ref.mp3", "ref.mp3", some "F1", "6A", 120, some (-10)⟩

def candC1a : TrackInfo := ⟨"F1/a.mp3", "a.mp3", some "F1", "6A", 121, some (-10)⟩

def candC1b : TrackInfo := ⟨"F2/b.mp3", "b.mp3", some "F2", "6A", 120, some (-10)⟩

def candC1c : TrackInfo := ⟨"F2/c.mp3", "c.mp3", some "F2", "7A", 120, some (-10)⟩

def dW1 : TrackInfo := ⟨"F2/d1.mp3", "d1.mp3", some "F2", "6A", 120, some (-10)⟩

def dW2 : TrackInfo := ⟨"F2/d2.mp3", "d2.mp3", some "F2", "6A", 120, some (-10)⟩

def refC6 : TrackInfo := ⟨"F/ref.mp3", "ref.mp3", some "F", "0A", 120, some (-10)⟩

def candC6 : TrackInfo := ⟨"F/c.mp3", "c.mp3", some "F", "12A", 120, some (-10)⟩

def trackW : TrackInfo := ⟨"a", "a", some "F", "6A", 120, some (-10)⟩

def fsW : String → Option (Rat × Nat) :=
  fun p => if p = "a" then some (1, 5) else some (2, 6)

def extW : String → TrackInfo := fun _ => trackW

def cacheW : Cache :=
  [("F1/a.mp3", ⟨0, 10, candC1a⟩), ("F1/ref.mp3", ⟨0, 10, refC1⟩)]

/-! ## Helper lemmas -/

theorem find_matches_eq (track : TrackInfo) (allowed : Option (List String))
    (library : List TrackInfo) :
    find_matches track allowed library =
      List.insertionSort matchLe (preMatches track allowed library) := by
  rcases allowed with _ | af
  · rfl
  · by_cases h : af = [] <;> simp [find_matches, preMatches, h]

theorem mem_matchesFor {m : MatchDescriptor} {track : TrackInfo}
    {library : List TrackInfo} :
    m ∈ matchesFor track library ↔
      ∃ c ∈ library, c.path ≠ track.path ∧
        c.camelot ∈ get_compatible_keys track.camelot ∧
        m = mkMatch track (trackFolderOf track) c := by
  unfold matchesFor
  simp only [List.mem_filterMap]
  constructor
  · rintro ⟨c, hc, hsome⟩
    refine ⟨c, hc, ?_⟩
    by_cases hp : c.path = track.path
    · rw [if_pos hp] at hsome; cases hsome
    · rw [if_neg hp] at hsome
      by_cases hk : (get_compatible_keys track.camelot).contains c.camelot = true
      · rw [if_pos hk] at hsome
        exact ⟨hp, by simpa using hk, (Option.some.inj hsome).symm⟩
      · rw [if_neg hk] at hsome; cases hsome
  · rintro ⟨c, hc, hp, hk, hm⟩
    refine ⟨c, hc, ?_⟩
    have hk' : (get_compatible_keys track.camelot).contains c.camelot = true := by
      simpa using hk
    rw [if_neg hp, if_pos hk', hm]

theorem mem_preMatches {m : MatchDescriptor} {track : TrackInfo}
    {allowed : Option (List String)} {library : List TrackInfo} :
    m ∈ preMatches track allowed library →
      ∃ c ∈ library, c.path ≠ track.path ∧
        c.camelot ∈ get_compatible_keys track.camelot ∧
        m = mkMatch track (trackFolderOf track) c := by
  intro hm
  rcases allowed with _ | af
  · rcases mem_matchesFor.mp hm with ⟨c, hc, h⟩
    exact ⟨c, hc, h⟩
  · by_cases h : af = []
    · simp [preMatches, h] at hm
    · simp only [preMatches, h, if_false] at hm
      rcases mem_matchesFor.mp hm with ⟨c, hc, hrest⟩
      exact ⟨c, List.mem_of_mem_filter hc, hrest⟩

theorem mem_find_matches {m : MatchDescriptor} {track : TrackInfo}
    {allowed : Option (List String)} {library : List TrackInfo} :
    m ∈ find_matches track allowed library ↔ m ∈ preMatches track allowed library := by
  rw [find_matches_eq]
  exact (List.perm_insertionSort matchLe _).mem_iff

/-- `classifyMix` only ever returns one of the three tiers, with the
priority rank the spec assigns to each. -/
theorem classifyMix_cases (a b : String) :
    (classifyMix a b).1 = "PERFECT" ∧ (classifyMix a b).2.2 = 1 ∨
    (classifyMix a b).1 = "HARMONIC" ∧ (classifyMix a b).2.2 = 2 ∨
    (classifyMix a b).1 = "ENERGY" ∧ (classifyMix a b).2.2 = 3 := by
  unfold classifyMix
  rcases parse_camelot_code a with _ | ⟨n, l⟩ <;>
    rcases parse_camelot_code b with _ | ⟨n', l'⟩
  · simp
  · simp
  · simp
  · by_cases h1 : a = b
    · simp [h1]
    · by_cases h2 : n = n' ∧ ¬l = l'
      · simp [h1, h2]
      · by_cases h3 : n' = n + 1 ∨ (n = 12 ∧ n' = 1)
        · simp [h1, h2, h3]
        · by_cases h4 : n' = n - 1 ∨ (n = 1 ∧ n' = 12)
          · simp [h1, h2, h3, h4]
          · simp [h1, h2, h3, h4]

theorem cacheLookup_nil (f : String) : cacheLookup [] f = none := rfl

theorem cacheLookup_cons (p : String × CacheEntry) (rest : Cache) (f : String) :
    cacheLookup (p :: rest) f =
      if p.1 = f then some p.2 else cacheLookup rest f := by
  by_cases h : p.1 = f <;> simp [cacheLookup, List.find?_cons, h]

theorem cacheLookup_cacheInsert_self (cache : Cache) (k : String) (v : CacheEntry) :
    cacheLookup (cacheInsert cache k v) k = some v := by
  induction cache with
  | nil => simp [cacheInsert, cacheLookup_cons]
  | cons p rest ih =>
    rw [cacheInsert]
    by_cases h : p.1 = k
    · rw [if_pos h, cacheLookup_cons, if_pos rfl]
    · rw [if_neg h, cacheLookup_cons, if_neg h, ih]

theorem cacheLookup_cacheInsert_ne (cache : Cache) (k : String) (v : CacheEntry)
    (f : String) (h : k ≠ f) :
    cacheLookup (cacheInsert cache k v) f = cacheLookup cache f := by
  induction cache with
  | nil => simp [cacheInsert, cacheLookup_cons, cacheLookup_nil, h]
  | cons p rest ih =>
    rw [cacheInsert]
    by_cases hp : p.1 = k
    · rw [if_pos hp, cacheLookup_cons, cacheLookup_cons, if_neg h, hp, if_neg (hp ▸ h)]
    · rw [if_neg hp, cacheLookup_cons, cacheLookup_cons, ih]

/-- The analysis queue is a sublist of the discovered files. -/
theorem scanPartition_snd_sublist (fsStat : String → Option (Rat × Nat))
    (cache : Cache) (g : Bool) (files : List String) :
    List.Sublist (scanPartition fsStat cache g files).2 files := by
  induction files with
  | nil => simp [scanPartition]
  | cons f rest ih =>
    rw [scanPartition]
    rcases hstat : fsStat f with _ | ⟨m, s⟩
    · exact ih.trans (List.sublist_cons_self f rest)
    · rcases hl : cacheLookup cache f with _ | cd
      · exact ih.cons₂ f
      · dsimp only
        split_ifs with h1 h2
        · exact ih.cons₂ f
        · exact ih.trans (List.sublist_cons_self f rest)
        · exact ih.cons₂ f

/-- The records produced by the analysis loop are exactly the extractor
applied to each queued file. -/
theorem scanAnalyze_fst (fsStat : String → Option (Rat × Nat))
    (extractor : String → TrackInfo) (cache : Cache) (l : List String) :
    (scanAnalyze fsStat extractor cache l).1 = l.map extractor := by
  induction l generalizing cache with
  | nil => simp [scanAnalyze]
  | cons f rest ih => simp [scanAnalyze, ih]

theorem scanAnalyze_lookup_of_not_mem (fsStat : String → Option (Rat × Nat))
    (extractor : String → TrackInfo) (cache : Cache) (l : List String)
    (f : String) (h : f ∉ l) :
    cacheLookup (scanAnalyze fsStat extractor cache l).2 f = cacheLookup cache f := by
  induction l generalizing cache with
  | nil => simp [scanAnalyze]
  | cons g rest ih =>
    have hg : g ≠ f := fun e => h (e ▸ List.mem_cons_self g rest)
    have hr : f ∉ rest := fun e => h (List.mem_cons_of_mem g e)
    rw [scanAnalyze]
    rcases hstat : fsStat g with _ | ⟨m, s⟩
    · exact ih _ hr
    · dsimp only
      rw [ih _ hr, cacheLookup_cacheInsert_ne _ _ _ _ hg]

/-- For every valid reference code, every member of its compatible-key
list is classified consistently with the actual number/letter delta: a
finite check over the 12 positions, 2 letters and 4 compatible codes. -/
theorem compat_classify_consistent :
    ∀ n : Fin 12, ∀ l ∈ (['A', 'B'] : List Char),
      ∀ cand ∈ get_compatible_keys (renderCamelot (n.1 + 1) l),
        mixConsistent (renderCamelot (n.1 + 1) l) cand
          (classifyMix (renderCamelot (n.1 + 1) l) cand).1 := by
  decide

/-- A file in the analysis queue always came from the input list. -/
theorem scanPartition_mem_of_mem_analyze {fsStat : String → Option (Rat × Nat)}
    {cache : Cache} {g : Bool} {files : List String} {f : String}
    (h : f ∈ (scanPartition fsStat cache g files).2) : f ∈ files :=
  (scanPartition_snd_sublist fsStat cache g files).mem h

theorem reusableEntry_of_none {cache : Cache} {g : Bool} {f : String}
    {m : Rat} {s : Nat} (h : cacheLookup cache f = none) :
    reusableEntry cache g f m s = false := by
  rw [reusableEntry, h]

theorem reusableEntry_of_some {cache : Cache} {g : Bool} {f : String}
    {m : Rat} {s : Nat} {cd : CacheEntry} (h : cacheLookup cache f = some cd) :
    (reusableEntry cache g f m s = true ↔
      cd.mtime = m ∧ cd.size = s ∧
        ¬(g = true ∧ cd.info.dbfs.getD (-99) = -99)) := by
  rw [reusableEntry, h]
  simp only [Bool.and_eq_true, decide_eq_true_eq, Bool.not_eq_true',
    Bool.and_eq_false_iff, and_assoc, decide_eq_false_iff_not]
  refine and_congr_right fun _ => and_congr_right fun _ => ?_
  constructor
  · rintro (hg | hx) ⟨hgt, hxx⟩
    · rw [hgt] at hg; cases hg
    · exact hx hxx
  · intro hno
    cases g
    · exact Or.inl rfl
    · exact Or.inr fun hx => hno ⟨rfl, hx⟩

/-- A considered file is queued for analysis exactly when its cache
entry is not reusable. -/
theorem scanPartition_mem_analyze_iff (fsStat : String → Option (Rat × Nat))
    (cache : Cache) (g : Bool) (files : List String) (hnd : files.Nodup)
    (f : String) (m : Rat) (s : Nat) (hf : f ∈ files)
    (hs : fsStat f = some (m, s)) :
    f ∈ (scanPartition fsStat cache g files).2 ↔
      reusableEntry cache g f m s = false := by
  induction files with
  | nil => cases hf
  | cons f0 rest ih =>
    have hnd' : rest.Nodup := hnd.of_cons
    have hf0 : f0 ∉ rest := (List.nodup_cons.mp hnd).1
    rcases List.mem_cons.mp hf with rfl | hfr
    · rw [scanPartition, hs]
      have hnr : f ∉ (scanPartition fsStat cache g rest).2 :=
        fun h => hf0 (scanPartition_mem_of_mem_analyze h)
      rcases hl : cacheLookup cache f with _ | cd
      · rw [reusableEntry_of_none hl]
        exact iff_of_true (List.mem_cons_self _ _) rfl
      · dsimp only
        rw [Bool.eq_false_iff, Ne, reusableEntry_of_some hl]
        split_ifs with h1 h2
        · refine iff_of_true (List.mem_cons_self _ _) ?_
          rintro ⟨_, _, hno⟩
          exact hno h2
        · refine iff_of_false hnr ?_
          intro hno
          exact hno ⟨h1.1, h1.2, h2⟩
        · refine iff_of_true (List.mem_cons_self _ _) ?_
          rintro ⟨hm1, hs1, _⟩
          exact h1 ⟨hm1, hs1⟩
    · have hne : f ≠ f0 := fun h => hf0 (h ▸ hfr)
      rw [scanPartition]
      rcases hst : fsStat f0 with _ | p
      · exact ih hnd' hfr
      · rcases hl : cacheLookup cache f0 with _ | cd
        · simpa [List.mem_cons, hne] using ih hnd' hfr
        · dsimp only
          split_ifs with h1 h2
          · simpa [List.mem_cons, hne] using ih hnd' hfr
          · exact ih hnd' hfr
          · simpa [List.mem_cons, hne] using ih hnd' hfr

/-- A considered file with a reusable entry contributes that entry's
cached record to the reused output. -/
theorem scanPartition_mem_reused (fsStat : String → Option (Rat × Nat))
    (cache : Cache) (g : Bool) (files : List String) (f : String)
    (m : Rat) (s : Nat) (cd : CacheEntry) (hf : f ∈ files)
    (hs : fsStat f = some (m, s)) (hl : cacheLookup cache f = some cd)
    (hr : reusableEntry cache g f m s = true) :
    cd.info ∈ (scanPartition fsStat cache g files).1 := by
  obtain ⟨hm1, hs1, hgain⟩ := (reusableEntry_of_some hl).mp hr
  induction files with
  | nil => cases hf
  | cons f0 rest ih =>
    rcases List.mem_cons.mp hf with rfl | hfr
    · rw [scanPartition, hs, hl]
      dsimp only
      rw [if_pos ⟨hm1, hs1⟩, if_neg hgain]
      exact List.mem_cons_self _ _
    · rw [scanPartition]
      rcases hst : fsStat f0 with _ | p
      · exact ih hfr
      · rcases hl0 : cacheLookup cache f0 with _ | cd0
        · exact ih hfr
        · dsimp only
          split_ifs with h1 h2
          · exact ih hfr
          · exact List.mem_cons_of_mem _ (ih hfr)
          · exact ih hfr

/-- A queued file's cache entry ends up overwritten with the current
fingerprint and the freshly extracted record. -/
theorem scanAnalyze_lookup_mem (fsStat : String → Option (Rat × Nat))
    (extractor : String → TrackInfo) (cache : Cache) (l : List String)
    (hnd : l.Nodup) (f : String) (m : Rat) (s : Nat) (hf : f ∈ l)
    (hs : fsStat f = some (m, s)) :
    cacheLookup (scanAnalyze fsStat extractor cache l).2 f =
      some ⟨m, s, extractor f⟩ := by
  induction l generalizing cache with
  | nil => cases hf
  | cons f0 rest ih =>
    rcases List.mem_cons.mp hf with rfl | hfr
    · have hnr : f ∉ rest := (List.nodup_cons.mp hnd).1
      rw [scanAnalyze, hs]
      dsimp only
      rw [scanAnalyze_lookup_of_not_mem _ _ _ _ _ hnr,
        cacheLookup_cacheInsert_self]
    · rw [scanAnalyze]
      rcases hst : fsStat f0 with _ | p <;> simp only [hst] <;>
        exact ih _ hnd.of_cons hfr

/-! ## Claim theorems -/

/-- C3: `compatibleKeys("8B")` returns exactly `"8B"`, `"8A"`, `"9B"`,
`"7B"` in that order, and `compatibleKeys("1A")` returns exactly `"1A"`,
`"1B"`, `"2A"`, `"12A"` in that order (the −1 neighbour of 1 wraps to
12). -/
theorem c3_compatible_set :
    get_compatible_keys "8B" = ["8B", "8A", "9B", "7B"] ∧
    get_compatible_keys "1A" = ["1A", "1B", "2A", "12A"] := by
  decide

/-- C4 counterexample: contrary to the claim, the inputs `"0A"`,
`"13B"` and `"8C"` — all outside `[1,12]×{A,B}` — do NOT yield the
empty set: the source validates neither the numeric range nor the
letter, and `"0A"` yields the four codes built by the same arithmetic. -/
theorem c4_counterexample :
    get_compatible_keys "0A" ≠ [] ∧
    get_compatible_keys "0A" = ["0A", "0B", "1A", "12A"] ∧
    get_compatible_keys "13B" ≠ [] ∧
    get_compatible_keys "8C" ≠ [] := by
  decide

/-- C4 amended: `compatibleKeys` returns the empty set exactly for the
sentinel `"---"` and for inputs whose shape fails to parse (length other
than 2 or 3, or a numeric prefix `int()` rejects); codes whose shape
parses — including out-of-range numbers such as `"0A"`/`"13B"` and
letters outside `{A,B}` such as `"8C"` — are processed structurally. -/
theorem c4_empty_characterization :
    (∀ s : String, get_compatible_keys s = [] ↔
      s = "---" ∨ parse_camelot_code s = none) ∧
    get_compatible_keys "5" = [] ∧
    get_compatible_keys "10AB" = [] ∧
    get_compatible_keys "xA" = [] ∧
    get_compatible_keys "0A" ≠ [] ∧
    get_compatible_keys "13B" ≠ [] ∧
    get_compatible_keys "8C" ≠ [] := by
  refine ⟨?_, by decide, by decide, by decide, by decide, by decide, by decide⟩
  intro s
  by_cases hs : s = "---"
  · simp [get_compatible_keys, hs]
  · rcases hp : parse_camelot_code s with _ | ⟨n, l⟩
    · simp [get_compatible_keys, hs, hp]
    · simp [get_compatible_keys, hs, hp]

/-- C4 witness: the emptiness characterization evaluated at a valid
code. -/
theorem c4_empty_characterization_witness :
    get_compatible_keys "8B" = [] ↔
      ("8B" = "---" ∨ parse_camelot_code "8B" = none) :=
  c4_empty_characterization.1 "8B"

/-- C5: classification follows the number/letter delta.  Same number
with a different letter yields `HARMONIC`; the direction reads "toward
bright/energetic" (`"Cambio de Escala: De Serio a Alegre"`) when the
reference letter is `A` and the candidate letter is `B`, and "toward
serious/deep" the other way; an adjacent number with the same letter
yields `ENERGY` up for +1 and down for −1 including wrap-around; in
particular `"5A"`→`"5B"` is `HARMONIC` toward bright and `"12B"`→`"1B"`
is `ENERGY` up. -/
theorem c5_classification_consistency :
    (∀ n : Fin 12,
      classifyMix (renderCamelot (n.1 + 1) 'A') (renderCamelot (n.1 + 1) 'B') =
        ("HARMONIC", "Cambio de Escala: De Serio a Alegre", 2) ∧
      classifyMix (renderCamelot (n.1 + 1) 'B') (renderCamelot (n.1 + 1) 'A') =
        ("HARMONIC", "Cambio de Escala: De Alegre a Serio", 2) ∧
      ∀ l ∈ (['A', 'B'] : List Char),
        classifyMix (renderCamelot (n.1 + 1) l)
            (renderCamelot (if n.1 + 1 < 12 then n.1 + 2 else 1) l) =
          ("ENERGY", "Subir energía (+1)", 3) ∧
        classifyMix (renderCamelot (n.1 + 1) l)
            (renderCamelot (if 1 < n.1 + 1 then n.1 else 12) l) =
          ("ENERGY", "Bajar energía (-1)", 3)) ∧
    classifyMix "5A" "5B" = ("HARMONIC", "Cambio de Escala: De Serio a Alegre", 2) ∧
    classifyMix "12B" "1B" = ("ENERGY", "Subir energía (+1)", 3) := by
  decide

/-- C5 witness: the wrap-around `ENERGY` up case `"12B"`→`"1B"`,
obtained from the quantified part at `n = 11`, `l = 'B'`. -/
theorem c5_classification_consistency_witness :
    classifyMix (renderCamelot (11 + 1) 'B')
        (renderCamelot (if 11 + 1 < 12 then 11 + 2 else 1) 'B') =
      ("ENERGY", "Subir energía (+1)", 3) :=
  (((c5_classification_consistency.1 ⟨11, by decide⟩).2.2) 'B' (by decide)).1

/-- C7: an explicitly empty (but non-null) folder allow-list yields zero
matches for every reference track and every candidate pool — even when
compatible candidates exist — while a null/absent allow-list leaves the
candidate pool unrestricted. -/
theorem c7_allowlist_scope :
    (∀ track library, find_matches track (some []) library = []) ∧
    (∀ track library, find_matches track none library =
      List.insertionSort matchLe (matchesFor track library)) ∧
    find_matches refC1 (some []) [candC1c, candC1b, candC1a] = [] ∧
    find_matches refC1 none [candC1c, candC1b, candC1a] ≠ [] := by
  exact ⟨fun _ _ => rfl, fun _ _ => rfl, rfl, by decide⟩

/-- C7 witness: the two clauses of the allow-list scope behaviour at a
concrete pool. -/
theorem c7_allowlist_scope_witness :
    find_matches refC1 (some []) [candC1a] = [] ∧
    find_matches refC1 none [candC1a] =
      List.insertionSort matchLe (matchesFor refC1 [candC1a]) :=
  ⟨c7_allowlist_scope.1 refC1 [candC1a], c7_allowlist_scope.2.1 refC1 [candC1a]⟩

/-- C9: loading the persisted cache with a missing file, or with a
read/parse failure, yields the empty cache and never raises; a save
failure is converted to a logged message and the call returns normally
in every case. -/
theorem c9_cache_io_tolerance :
    (∀ r, load_cache false r = []) ∧
    (∀ b e, load_cache b (Except.error e) = []) ∧
    (∀ w, (save_cache w).1 = ()) ∧
    (∀ e, save_cache (Except.error e) =
      ((), some ("Error guardando caché: " ++ e))) := by
  refine ⟨fun r => rfl, fun b e => ?_, fun w => ?_, fun e => rfl⟩
  · cases b <;> rfl
  · cases w <;> rfl

/-- C1: the matching engine returns the surviving candidates in
ascending lexicographic order of `(same_folder_rank, priority,
bpm_diff)`, stably for ties, where the emitted fields satisfy
`bpm_diff = |candidate.bpm − reference.bpm|`, `same_folder_rank` is 0
when the candidate's folder equals the reference's and 10 otherwise,
and `priority` is 1/2/3 for PERFECT/HARMONIC/ENERGY; in particular the
spec §8 example with reference BPM 120, folder F1, camelot 6A orders
its three candidates (a), (b), (c). -/
theorem c1_ranking_order (track : TrackInfo) (allowed : Option (List String))
    (library : List TrackInfo) :
    List.Pairwise matchLe (find_matches track allowed library) ∧
    (find_matches track allowed library).Perm (preMatches track allowed library) ∧
    (∀ x y : MatchDescriptor,
      x.same_folder_priority = y.same_folder_priority →
      x.priority = y.priority → x.bpm_diff = y.bpm_diff →
      List.Sublist [x, y] (preMatches track allowed library) →
      List.Sublist [x, y] (find_matches track allowed library)) ∧
    (∀ m ∈ find_matches track allowed library,
      m.bpm_diff = (m.track.bpm - track.bpm).natAbs ∧
      m.same_folder_priority =
        (if candidateFolderOf m.track = trackFolderOf track then 0 else 10) ∧
      (m.mix_type = "PERFECT" → m.priority = 1) ∧
      (m.mix_type = "HARMONIC" → m.priority = 2) ∧
      (m.mix_type = "ENERGY" → m.priority = 3)) ∧
    (find_matches refC1 none [candC1c, candC1b, candC1a]).map MatchDescriptor.track =
      [candC1a, candC1b, candC1c] := by
  refine ⟨?_, ?_, ?_, ?_, by decide⟩
  · rw [find_matches_eq]
    exact List.sorted_insertionSort matchLe _
  · rw [find_matches_eq]
    exact List.perm_insertionSort matchLe _
  · intro x y h1 h2 h3 hsub
    rw [find_matches_eq]
    refine List.sublist_insertionSort ?_ hsub
    have hxy : matchLe x y := Or.inr ⟨h1, Or.inr ⟨h2, le_of_eq h3⟩⟩
    simp [List.pairwise_cons, hxy]
  · intro m hm
    obtain ⟨c, _, _, _, hmk⟩ := mem_preMatches (mem_find_matches.mp hm)
    subst hmk
    refine ⟨rfl, rfl, ?_, ?_, ?_⟩ <;>
      · intro hty
        rcases classifyMix_cases track.camelot c.camelot with ⟨h, h2⟩ | ⟨h, h2⟩ | ⟨h, h2⟩ <;>
          simp only [mkMatch] at hty ⊢ <;> rw [h] at hty <;> first
            | exact h2
            | exact absurd hty (by decide)

/-- C1 witness: the stability clause applied to two fully tied
descriptors, and the key-field clause applied to an emitted
descriptor, both at concrete inputs. -/
theorem c1_ranking_order_witness :
    List.Sublist [mkMatch refC1 (trackFolderOf refC1) dW1,
        mkMatch refC1 (trackFolderOf refC1) dW2]
      (find_matches refC1 none [dW1, dW2]) ∧
    (mkMatch refC1 (trackFolderOf refC1) dW1).bpm_diff =
      ((mkMatch refC1 (trackFolderOf refC1) dW1).track.bpm - refC1.bpm).natAbs := by
  constructor
  · exact (c1_ranking_order refC1 none [dW1, dW2]).2.2.1 _ _ (by decide) (by decide)
      (by decide) (by decide)
  · exact ((c1_ranking_order refC1 none [dW1, dW2]).2.2.2.1 _ (by decide)).1

/-- C6 counterexample: with reference code `"0A"` (possible via
caller-supplied track data) and candidate `"12A"`, the candidate's
number/letter delta matches none of the three relations — the codes
differ, the numbers 0 and 12 differ, and 12 is neither 0+1 nor 0−1 nor
a wrap-around neighbour of 0 — yet its code is in the raw
compatible-key set and the engine emits it (rather than excluding it)
with the default `mix_type` `"HARMONIC"`, inconsistent with the actual
delta. -/
theorem c6_counterexample :
    candC6.camelot ∈ get_compatible_keys refC6.camelot ∧
    parse_camelot_code refC6.camelot = some (0, 'A') ∧
    parse_camelot_code candC6.camelot = some (12, 'A') ∧
    refC6.camelot ≠ candC6.camelot ∧
    (0 : Int) ≠ 12 ∧
    ¬((12 : Int) = 0 + 1 ∨ ((0 : Int) = 12 ∧ (12 : Int) = 1)) ∧
    ¬((12 : Int) = 0 - 1 ∨ ((0 : Int) = 1 ∧ (12 : Int) = 12)) ∧
    (find_matches refC6 none [candC6]).map MatchDescriptor.mix_type = ["HARMONIC"] := by
  decide

/-- C6 amended: the engine never excludes a candidate whose code lies in
the raw compatible-key set (so no delta-based re-exclusion exists;
with an unclassifiable delta the descriptor keeps the default
`"HARMONIC"`), and the emitted `mix_type` is guaranteed consistent with
the actual number/letter delta whenever the reference carries a valid
code in `[1,12]×{A,B}`. -/
theorem c6_emission_and_consistency :
    (∀ (n : Nat) (l : Char) (track : TrackInfo) (allowed : Option (List String))
      (library : List TrackInfo) (m : MatchDescriptor),
      1 ≤ n → n ≤ 12 → l = 'A' ∨ l = 'B' →
      track.camelot = renderCamelot n l →
      m ∈ find_matches track allowed library →
      mixConsistent track.camelot m.track.camelot m.mix_type) ∧
    (∀ (track : TrackInfo) (library : List TrackInfo) (c : TrackInfo),
      c ∈ library → c.path ≠ track.path →
      c.camelot ∈ get_compatible_keys track.camelot →
      mkMatch track (trackFolderOf track) c ∈ find_matches track none library) := by
  constructor
  · intro n l track allowed library m h1 h12 hl hcam hm
    obtain ⟨c, _, _, hk, hmk⟩ := mem_preMatches (mem_find_matches.mp hm)
    subst hmk
    have hlt : n - 1 < 12 := by omega
    have hn : (⟨n - 1, hlt⟩ : Fin 12).1 + 1 = n := by simp; omega
    have hmain := compat_classify_consistent ⟨n - 1, hlt⟩ l
      (by rcases hl with h | h <;> simp [h])
    rw [hn, ← hcam] at hmain
    have := hmain c.camelot hk
    simpa [mkMatch] using this
  · intro track library c hc hp hk
    rw [mem_find_matches]
    exact mem_matchesFor.mpr ⟨c, hc, hp, hk, rfl⟩

/-- C6 witness: both clauses at concrete inputs — the consistency of
the single emitted descriptor for reference `"6A"`, and the guaranteed
emission of a compatible candidate. -/
theorem c6_emission_and_consistency_witness :
    mixConsistent refC1.camelot
      (mkMatch refC1 (trackFolderOf refC1) candC1a).track.camelot
      (mkMatch refC1 (trackFolderOf refC1) candC1a).mix_type ∧
    mkMatch refC1 (trackFolderOf refC1) candC1a ∈
      find_matches refC1 none [candC1a] := by
  constructor
  · exact c6_emission_and_consistency.1 6 'A' refC1 none [candC1a] _
      (by decide) (by decide) (Or.inl rfl) (by decide) (by decide)
  · exact c6_emission_and_consistency.2 refC1 [candC1a] candC1a
      (by decide) (by decide) (by decide)

/-- C10: the library view feeding the matcher keeps only cached records
with a truthy, non-sentinel camelot code, so every emitted suggestion
carries a non-sentinel camelot code — never-analyzed tracks cannot be
suggested. -/
theorem c10_library_no_sentinel (cache : Cache) (track : TrackInfo)
    (allowed : Option (List String)) :
    (∀ info ∈ get_library cache, info.camelot ≠ "" ∧ info.camelot ≠ "---") ∧
    (∀ m ∈ find_matches_cache cache track allowed,
      m.track.camelot ≠ "" ∧ m.track.camelot ≠ "---") := by
  have hlib : ∀ info ∈ get_library cache, info.camelot ≠ "" ∧ info.camelot ≠ "---" := by
    intro info hinfo
    have := List.mem_filter.mp hinfo
    simpa using this.2
  refine ⟨hlib, ?_⟩
  intro m hm
  obtain ⟨c, hc, _, _, hmk⟩ := mem_preMatches (mem_find_matches.mp hm)
  subst hmk
  simpa [mkMatch] using hlib c hc

/-- C10 witness: the suggestion clause applied to the single descriptor
the matcher emits from a concrete two-entry cache. -/
theorem c10_library_no_sentinel_witness :
    (mkMatch refC1 (trackFolderOf refC1) candC1a).track.camelot ≠ "" ∧
    (mkMatch refC1 (trackFolderOf refC1) candC1a).track.camelot ≠ "---" :=
  (c10_library_no_sentinel cacheW refC1 none).2 _ (by decide)

/-- C2: for every candidate file the scan considers (the stat
succeeded), the file is queued for re-extraction exactly when its cache
entry is not reusable — i.e. unless the stored fingerprint equals the
current `(mtime, size)` and (loudness was not requested or the cached
`loudness_dbfs` is not the sentinel −99.0); a reusable entry's cached
record is emitted unchanged, the extractor runs exactly on the queued
files, and each queued file's entry is overwritten with the current
fingerprint and the fresh extraction. -/
theorem c2_incremental_cache (fsStat : String → Option (Rat × Nat))
    (extractor : String → TrackInfo) (cache : Cache) (calculate_gain : Bool)
    (files : List String) (f : String) (mtime : Rat) (size : Nat)
    (hnd : files.Nodup) (hf : f ∈ files)
    (hs : fsStat f = some (mtime, size)) :
    (f ∈ (scanPartition fsStat cache calculate_gain files).2 ↔
      reusableEntry cache calculate_gain f mtime size = false) ∧
    (reusableEntry cache calculate_gain f mtime size = true →
      ∃ cd, cacheLookup cache f = some cd ∧
        cd.info ∈ (scanPartition fsStat cache calculate_gain files).1) ∧
    ((scanAnalyze fsStat extractor cache
        (scanPartition fsStat cache calculate_gain files).2).1 =
      ((scanPartition fsStat cache calculate_gain files).2).map extractor) ∧
    (f ∈ (scanPartition fsStat cache calculate_gain files).2 →
      cacheLookup (scanAnalyze fsStat extractor cache
          (scanPartition fsStat cache calculate_gain files).2).2 f =
        some ⟨mtime, size, extractor f⟩) := by
  refine ⟨scanPartition_mem_analyze_iff fsStat cache calculate_gain files hnd f
      mtime size hf hs, ?_, scanAnalyze_fst _ _ _ _, ?_⟩
  · intro hr
    rcases hl : cacheLookup cache f with _ | cd
    · rw [reusableEntry_of_none hl] at hr
      cases hr
    · exact ⟨cd, rfl,
        scanPartition_mem_reused fsStat cache calculate_gain files f mtime size
          cd hf hs hl hr⟩
  · intro hq
    exact scanAnalyze_lookup_mem fsStat extractor cache _
      ((scanPartition_snd_sublist fsStat cache calculate_gain files).nodup hnd)
      f mtime size hq hs

/-- C2 witness: the reuse criterion evaluated on a two-file scan over an
empty cache. -/
theorem c2_incremental_cache_witness :
    "a" ∈ (scanPartition fsW ([] : Cache) true ["a", "b"]).2 ↔
      reusableEntry ([] : Cache) true "a" 1 5 = false :=
  (c2_incremental_cache fsW extW [] true ["a", "b"] "a" 1 5
    (by decide) (by decide) (by decide)).1

/-- C8: scan discovery enumerates every root for every fixed audio
extension pattern, unions the results, and deduplicates by normalized
absolute path, so the discovered list has no duplicates — each
(resolved) file appears at most once however many overlapping roots
reach it — and contains exactly the absolute paths of the files found
under some root with some audio extension. -/
theorem c8_discovery_dedup (globFind : String → String → List String)
    (abspath : String → String) (directories : List String) :
    (discoverFiles globFind abspath directories).Nodup ∧
    (∀ p, p ∈ discoverFiles globFind abspath directories ↔
      ∃ d ∈ directories, ∃ e ∈ audioExtensions, ∃ g ∈ globFind d e,
        abspath g = p) ∧
    (∀ p, (discoverFiles globFind abspath directories).count p ≤ 1) := by
  refine ⟨List.nodup_dedup _, ?_, ?_⟩
  · intro p
    simp only [discoverFiles, List.mem_dedup, List.mem_flatMap, List.mem_map]
    constructor
    · rintro ⟨g, ⟨d, hd, e, he, hg⟩, hp⟩
      exact ⟨d, hd, e, he, g, hg, hp⟩
    · rintro ⟨d, hd, e, he, g, hg, hp⟩
      exact ⟨g, ⟨d, hd, e, he, hg⟩, hp⟩
  · intro p
    exact List.nodup_iff_count_le_one.mp (List.nodup_dedup _) p

/-- C8 witness: the discovery output over two overlapping roots (both
finding the same file) has no duplicates. -/
theorem c8_discovery_dedup_witness :
    (discoverFiles (fun _ _ => ["r/x.mp3"]) (fun p => p) ["r", "r/sub"]).Nodup :=
  (c8_discovery_dedup (fun _ _ => ["r/x.mp3"]) (fun p => p) ["r", "r/sub"]).1

end Mezclas
